import Mathlib

/-!
# Scan workflow controller of `static/js/main.js`

A shallow embedding of the page controller: the DOM nodes the script holds
become fields of a record, the script's functions become functions on that
record, and the promise chain of `startScan` becomes one settlement step.
Strings are sequences of Unicode characters; finite IEEE doubles are
represented by the rational number they denote, which makes the comparisons of
the script exact; what the engine computes by rounding or by its own wording is
a parameter (`Engine`). The page state records what the script assigns to each
element; how the browser lays out, parses markup or scrolls is outside of it.
-/

namespace ScanPage

/-! ## Strings -/

/-- ECMAScript `WhiteSpace` and `LineTerminator` code points, the characters
`String.prototype.trim` strips. -/
def isJSWhitespace (c : Char) : Bool :=
  let n := c.toNat
  n = 0x09 || n = 0x0A || n = 0x0B || n = 0x0C || n = 0x0D || n = 0x20 ||
  n = 0xA0 || n = 0x1680 || (0x2000 ≤ n && n ≤ 0x200A) || n = 0x2028 ||
  n = 0x2029 || n = 0x202F || n = 0x205F || n = 0x3000 || n = 0xFEFF

/-- Characters of `String.prototype.trim`: white space dropped at both ends. -/
def trimChars (cs : List Char) : List Char :=
  ((cs.dropWhile isJSWhitespace).reverse.dropWhile isJSWhitespace).reverse

/-- Model of `String.prototype.trim`. -/
def jsTrim (s : String) : String :=
  String.mk (trimChars s.data)

/-- Regex class `\w` (without the unicode flag): `[A-Za-z0-9_]`. -/
def isWordChar (c : Char) : Bool :=
  c.isAlphanum || c = '_'

/-- Model of `.replace(/_/g, ' ')`: every underscore becomes one space. -/
def replaceUnderscores (cs : List Char) : List Char :=
  cs.map fun c => if c = '_' then ' ' else c

/-- Model of `.replace(/\b\w/g, l => l.toUpperCase())`, scanning left to right:
a character is matched when it is a word character and the character before it
(in the subject string) is not one, or there is none. `prevWord` tells whether
the previous character was a word character. -/
def upcaseWordStarts : Bool → List Char → List Char
  | _, [] => []
  | prevWord, c :: cs =>
    (if isWordChar c && !prevWord then c.toUpper else c) ::
      upcaseWordStarts (isWordChar c) cs

/-- The title of a check block, line 99:
`checkName.replace(/_/g, ' ').replace(/\b\w/g, l => l.toUpperCase())`. -/
def checkTitle (checkName : String) : String :=
  String.mk (upcaseWordStarts false (replaceUnderscores checkName.data))

/-! ## Values received from the service -/

/-- A JavaScript number: a finite double (the rational it denotes), an
infinity, or NaN. -/
inductive JSNum where
  | fin (q : ℚ)
  | posInf
  | negInf
  | nan

/-- A value produced by `response.json()`. The property list of an object is
in enumeration order, the order `Object.entries` yields. -/
inductive JSON where
  | null
  | bool (b : Bool)
  | num (x : JSNum)
  | str (s : String)
  | arr (items : List JSON)
  | obj (props : List (String × JSON))

/-- A thrown error object, of which the script reads `message` only. -/
structure JSError where
  message : String
  deriving DecidableEq, Repr

/-- Built-ins of the JavaScript engine the script relies on and this
development leaves uninterpreted: IEEE rounding, the text of numbers other
than integers below `2^53`, numeric parsing of strings, the string form of
arrays and objects, and the wording of the engine's own `TypeError`s. -/
structure Engine where
  fdiv : JSNum → JSNum → JSNum
  fmul : JSNum → JSNum → JSNum
  otherNumberText : ℚ → String
  stringToNumber : String → JSNum
  objectToString : JSON → Except JSError String
  typeErrorMessage : String → String

/-- A `TypeError` raised by the engine at the operation described. -/
def typeError (E : Engine) (what : String) : JSError :=
  ⟨E.typeErrorMessage what⟩

/-- The text of a number (`Number::toString`): integers below `2^53` in
magnitude, all of them doubles, print as their decimal digits; the shortest
round-trip text of every other finite value is left to the engine. -/
def numberToString (E : Engine) : JSNum → String
  | .fin q =>
    if q.den = 1 ∧ q.num.natAbs < 2 ^ 53 then toString q.num else E.otherNumberText q
  | .posInf => "Infinity"
  | .negInf => "-Infinity"
  | .nan => "NaN"

/-- The comparison `x < k` for a finite constant `k` (lines 77 and 81); it is
false for NaN. -/
def ltConst (x : JSNum) (k : ℚ) : Bool :=
  match x with
  | .fin q => decide (q < k)
  | .negInf => true
  | .posInf => false
  | .nan => false

/-- Property read `v.key` for the keys the script uses (`url`, `risk_score`,
`checks`, `error`, `is_suspicious`, `reasons`), none of which lives on a
prototype: `null` throws, an object yields its own property or `undefined`
(`none`), every other value yields `undefined`. -/
def getProp (E : Engine) (v : JSON) (key : String) : Except JSError (Option JSON) :=
  match v with
  | .null => .error (typeError E ("read " ++ key ++ " of null"))
  | .obj props => .ok (props.lookup key)
  | _ => .ok none

/-- The conversion `ToBoolean`, as `if (v)` and `v ? a : b` apply it. -/
def truthy : Option JSON → Bool
  | none => false
  | some .null => false
  | some (.bool b) => b
  | some (.num (.fin q)) => decide (q ≠ 0)
  | some (.num .nan) => false
  | some (.num _) => true
  | some (.str s) => decide (s ≠ "")
  | some (.arr _) => true
  | some (.obj _) => true

/-- The conversion `ToString`, as template literals and `new Error(v)` apply it. -/
def toStringJS (E : Engine) : Option JSON → Except JSError String
  | none => .ok "undefined"
  | some .null => .ok "null"
  | some (.bool b) => .ok (if b then "true" else "false")
  | some (.num x) => .ok (numberToString E x)
  | some (.str s) => .ok s
  | some v => E.objectToString v

/-- The conversion `ToNumber`, as `/` and `<` apply it to a non-numeric operand. -/
def toNumberJS (E : Engine) : Option JSON → Except JSError JSNum
  | none => .ok .nan
  | some .null => .ok (.fin 0)
  | some (.bool b) => .ok (.fin (if b then 1 else 0))
  | some (.num x) => .ok x
  | some (.str s) => .ok (E.stringToNumber s)
  | some v => (E.objectToString v).map E.stringToNumber

/-- Conversion done by the `textContent` setter, whose type is a nullable
string: `null` and `undefined` clear the text. -/
def toTextContent (E : Engine) : Option JSON → Except JSError String
  | none => .ok ""
  | some .null => .ok ""
  | v => toStringJS E v

/-- The call `Object.entries(v)`: it throws on `undefined` and `null`, lists the
properties of an object, the indexed elements of an array and the indexed
characters of a string, and is empty for booleans and numbers. -/
def objectEntries (E : Engine) : Option JSON → Except JSError (List (String × JSON))
  | none => .error (typeError E "Object.entries of undefined")
  | some .null => .error (typeError E "Object.entries of null")
  | some (.obj props) => .ok props
  | some (.arr items) => .ok (items.enum.map fun ix => (toString ix.1, ix.2))
  | some (.str s) =>
    .ok (s.data.enum.map fun ix => (toString ix.1, JSON.str (String.singleton ix.2)))
  | some _ => .ok []

/-! ## The page -/

/-- A child appended to `#checkResults`: its class and the markup assigned to
its `innerHTML`. The element tree the browser parses out of that markup is not
modelled; statements about a block are statements about this markup. -/
structure CheckBlock where
  className : String
  innerHTML : String
  deriving DecidableEq, Repr

/-- The DOM state the script reads and writes: for every element it holds, the
properties it assigns. Membership of a class in a `classList` is a flag. -/
structure Page where
  urlInputValue : String
  scanButtonDisabled : Bool
  scanButtonOpacity75 : Bool
  scanButtonCursorNotAllowed : Bool
  loadingHidden : Bool
  resultsHidden : Bool
  errorHidden : Bool
  errorMessageText : String
  riskScoreText : String
  riskBarWidth : String
  riskBarClass : String
  riskBadgeClass : String
  riskBadgeText : String
  scannedUrlText : String
  checkResults : List CheckBlock
  deriving DecidableEq, Repr

/-- Lines 121-127. The scroll into view changes the viewport only, which is
not part of the page state. -/
def showError (message : String) (p : Page) : Page :=
  { p with errorMessageText := message, errorHidden := false }

/-- A step that can throw, run against page `p`: a throw is reported together
with the page as it stands. -/
def raiseAt {α : Type} (p : Page) : Except JSError α → Except (JSError × Page) α
  | .ok a => .ok a
  | .error e => .error (e, p)

/-- The markup of lines 102-112 with its four substitutions filled in. -/
def checkBlockHTML (title badgeClass badgeText items : String) : String :=
  "\n                <div class=\"flex justify-between items-center mb-2\">" ++
  "\n                    <h4 class=\"font-medium\">" ++ title ++ "</h4>" ++
  "\n                    <span class=\"px-2 py-1 text-xs font-medium rounded-full " ++
    badgeClass ++ "\">" ++
  "\n                        " ++ badgeText ++
  "\n                    </span>" ++
  "\n                </div>" ++
  "\n                <ul class=\"text-sm text-gray-600 space-y-1\">" ++
  "\n                    " ++ items ++
  "\n                </ul>" ++
  "\n            "

/-- Line 110, `checkData.reasons.map(reason => ...)`: only an array has a
callable `map`. -/
def reasonItems (E : Engine) : Option JSON → Except JSError (List String)
  | some (.arr items) =>
    items.mapM fun reason => do
      let text ← toStringJS E (some reason)
      pure ("<li>• " ++ text ++ "</li>")
  | none => .error (typeError E "read map of undefined")
  | some .null => .error (typeError E "read map of null")
  | some _ => .error (typeError E "reasons.map is not a function")

/-- One iteration of the loop of lines 95-115, up to the element it appends. -/
def renderCheck (E : Engine) (checkName : String) (checkData : JSON) :
    Except JSError CheckBlock := do
  let title := checkTitle checkName
  let isSuspicious ← getProp E checkData "is_suspicious"
  let badgeClass :=
    if truthy isSuspicious then "bg-red-100 text-red-800" else "bg-green-100 text-green-800"
  let badgeText := if truthy isSuspicious then "Suspicious" else "Safe"
  let reasons ← getProp E checkData "reasons"
  let items ← reasonItems E reasons
  pure ⟨"p-4 border rounded-lg", checkBlockHTML title badgeClass badgeText (String.join items)⟩

/-- The loop of lines 95-115 over the entries taken at its start. -/
def renderChecks (E : Engine) : List (String × JSON) → Page → Except (JSError × Page) Page
  | [], p => .ok p
  | (checkName, checkData) :: rest, p =>
    match renderCheck E checkName checkData with
    | .error e => .error (e, p)
    | .ok block => renderChecks E rest { p with checkResults := p.checkResults ++ [block] }

/-- Lines 77-89: bar class, badge class and badge label of the band. -/
def applyRiskBand (score : JSNum) (p : Page) : Page :=
  if ltConst score 4 then
    { p with
      riskBarClass := "h-4 rounded-full bg-green-500"
      riskBadgeClass := "px-4 py-1 rounded-full text-sm font-medium bg-green-100 text-green-800"
      riskBadgeText := "Low Risk" }
  else if ltConst score 7 then
    { p with
      riskBarClass := "h-4 rounded-full bg-yellow-500"
      riskBadgeClass := "px-4 py-1 rounded-full text-sm font-medium bg-yellow-100 text-yellow-800"
      riskBadgeText := "Medium Risk" }
  else
    { p with
      riskBarClass := "h-4 rounded-full bg-red-500"
      riskBadgeClass := "px-4 py-1 rounded-full text-sm font-medium bg-red-100 text-red-800"
      riskBadgeText := "High Risk" }

/-- Lines 68-119. The result is the page after a normal return, or the error
thrown and the page as the statements before the throw left it. -/
def displayResults (E : Engine) (data : JSON) (p : Page) : Except (JSError × Page) Page := do
  let url ← raiseAt p (getProp E data "url")
  let urlText ← raiseAt p (toTextContent E url)
  let p := { p with scannedUrlText := urlText }
  let riskScore ← raiseAt p (getProp E data "risk_score")
  let scoreText ← raiseAt p (toStringJS E riskScore)
  let p := { p with riskScoreText := scoreText ++ "/10" }
  let score ← raiseAt p (toNumberJS E riskScore)
  let riskPercentage := E.fmul (E.fdiv score (.fin 10)) (.fin 100)
  let p := { p with riskBarWidth := numberToString E riskPercentage ++ "%" }
  let score ← raiseAt p (toNumberJS E riskScore)
  let p := applyRiskBand score p
  let p := { p with checkResults := [] }
  let checks ← raiseAt p (getProp E data "checks")
  let entries ← raiseAt p (objectEntries E checks)
  let p ← renderChecks E entries p
  pure { p with resultsHidden := false }

/-! ## The controller -/

/-- The page together with the requests that are in flight and three counters
kept for the record: how many requests were sent, how often `displayResults`
was called, and how often the `finally` callback ran. -/
structure Controller where
  page : Page
  inFlight : List String
  requestsSent : Nat
  renderCalls : Nat
  cleanupRuns : Nat
  deriving DecidableEq, Repr

/-- Lines 24-49, the synchronous part of `startScan`: the guard on the trimmed
input, the switch to the loading display, and the `fetch` of `/scan` with body
`JSON.stringify({ url: url })`, recorded by its `url`. -/
def startScan (c : Controller) : Controller :=
  let url := jsTrim c.page.urlInputValue
  if url = "" then
    { c with page := showError "Please enter a URL to scan" c.page }
  else
    { c with
      page :=
        { c.page with
          loadingHidden := false
          resultsHidden := true
          errorHidden := true
          scanButtonDisabled := true
          scanButtonOpacity75 := true
          scanButtonCursorNotAllowed := true }
      inFlight := c.inFlight ++ [url]
      requestsSent := c.requestsSent + 1 }

/-- What `response.json()` makes of a response body: a rejection with the
parser's `SyntaxError`, or the parsed value. -/
inductive Body where
  | unparsable (syntaxErrorMessage : String)
  | json (data : JSON)

/-- How the `fetch` of line 43 settles: rejected (network failure, with the
message of the error the browser raises), or fulfilled with a response of some
HTTP status. -/
inductive FetchOutcome where
  | networkFailure (message : String)
  | response (status : Nat) (body : Body)

/-- The callback of lines 51-56. Returns the controller and the error thrown,
if any. -/
def onData (E : Engine) (data : JSON) (c : Controller) : Controller × Option JSError :=
  match getProp E data "error" with
  | .error e => (c, some e)
  | .ok err =>
    if truthy err then
      match toStringJS E err with
      | .ok message => (c, some ⟨message⟩)
      | .error e => (c, some e)
    else
      let c := { c with renderCalls := c.renderCalls + 1 }
      match displayResults E data c.page with
      | .ok p => ({ c with page := p }, none)
      | .error (e, p) => ({ c with page := p }, some e)

/-- The callback of lines 57-60. -/
def onRejected (error : JSError) (c : Controller) : Controller :=
  let message :=
    if error.message ≠ "" then error.message else "An error occurred while scanning the URL"
  { c with page := showError message c.page }

/-- The callback of lines 61-65. -/
def onFinally (c : Controller) : Controller :=
  { c with
    page :=
      { c.page with
        loadingHidden := true
        scanButtonDisabled := false
        scanButtonOpacity75 := false
        scanButtonCursorNotAllowed := false }
    cleanupRuns := c.cleanupRuns + 1 }

/-- The promise chain of lines 50-65 run on a settled `fetch`: the two `then`
callbacks while nothing is rejected, the `catch` callback on a rejection, and
the `finally` callback after either. The callbacks that touch the page run in
consecutive microtasks, so no user event falls between them. -/
def settle (E : Engine) (outcome : FetchOutcome) (c : Controller) : Controller :=
  let afterThen : Controller × Option JSError :=
    match outcome with
    | .networkFailure message => (c, some ⟨message⟩)
    | .response _ (.unparsable message) => (c, some ⟨message⟩)
    | .response _ (.json data) => onData E data c
  let afterCatch : Controller :=
    match afterThen.2 with
    | none => afterThen.1
    | some error => onRejected error afterThen.1
  onFinally afterCatch

/-- What can happen to the page: the user edits the URL field, clicks the scan
button, presses a key in the URL field, or the `i`-th request in flight
settles. -/
inductive Event where
  | edit (text : String)
  | click
  | keypress (key : String)
  | settled (i : Nat) (outcome : FetchOutcome)

/-- One event handled (lines 14-22 for the two triggers). A disabled button
dispatches no click; the key handler calls `startScan` on Enter whatever the
state of the button. -/
def step (E : Engine) (c : Controller) : Event → Controller
  | .edit text => { c with page := { c.page with urlInputValue := text } }
  | .click => if c.page.scanButtonDisabled then c else startScan c
  | .keypress key => if key = "Enter" then startScan c else c
  | .settled i outcome =>
    if i < c.inFlight.length then
      settle E outcome { c with inFlight := c.inFlight.eraseIdx i }
    else c

/-- Whether the event is the settlement of a request, as opposed to something
the user does. -/
def Event.isSettled : Event → Bool
  | .settled _ _ => true
  | _ => false

/-- A sequence of events handled in order. -/
def run (E : Engine) (c : Controller) (events : List Event) : Controller :=
  events.foldl (step E) c

/-- Modelled from the spec: the page skeleton (the HTML document, not part of
the sources) as the spec's `Idle` state has it: loading indicator, results
panel and error panel hidden, the trigger enabled, nothing rendered. -/
def initialPage : Page where
  urlInputValue := ""
  scanButtonDisabled := false
  scanButtonOpacity75 := false
  scanButtonCursorNotAllowed := false
  loadingHidden := true
  resultsHidden := true
  errorHidden := true
  errorMessageText := ""
  riskScoreText := ""
  riskBarWidth := ""
  riskBarClass := ""
  riskBadgeClass := ""
  riskBadgeText := ""
  scannedUrlText := ""
  checkResults := []

/-- The controller when the page has loaded: nothing sent, nothing in flight. -/
def initialController : Controller where
  page := initialPage
  inFlight := []
  requestsSent := 0
  renderCalls := 0
  cleanupRuns := 0

/-! ## Well-formed responses -/

/-- A `CheckResult` of the response shape. -/
structure CheckResult where
  is_suspicious : Bool
  reasons : List String
  deriving DecidableEq, Repr

/-- A well-formed `ScanResponse`: a URL, a numeric score (a finite double) and
the entries of `checks` in the order `Object.entries` yields them; no `error`
field. -/
structure ScanResponse where
  url : String
  risk_score : ℚ
  checks : List (String × CheckResult)

/-- The value `response.json()` yields for a check result. -/
def CheckResult.toJSON (r : CheckResult) : JSON :=
  .obj [("is_suspicious", .bool r.is_suspicious), ("reasons", .arr (r.reasons.map .str))]

/-- The value `response.json()` yields for a well-formed response. -/
def ScanResponse.toJSON (r : ScanResponse) : JSON :=
  .obj [("url", .str r.url), ("risk_score", .num (.fin r.risk_score)),
        ("checks", .obj (r.checks.map fun nc => (nc.1, nc.2.toJSON)))]

/-- An engine with exact rational arithmetic in place of IEEE rounding, for
evaluating the definitions on inputs where rounding and the engine's wording
play no part. -/
def exactEngine : Engine where
  fdiv := fun x y =>
    match x, y with
    | .fin a, .fin b => if b = 0 then .nan else .fin (a / b)
    | _, _ => .nan
  fmul := fun x y =>
    match x, y with
    | .fin a, .fin b => .fin (a * b)
    | _, _ => .nan
  otherNumberText := fun q => toString q.num ++ "/" ++ toString q.den
  stringToNumber := fun _ => .nan
  objectToString := fun _ => .ok "[object Object]"
  typeErrorMessage := fun what => "TypeError: " ++ what

/-- The `<li>` markup of one reason, line 110. -/
def reasonItem (reason : String) : String :=
  "<li>• " ++ reason ++ "</li>"

/-- The block a well-formed entry of `checks` is expected to produce: the
humanized title, the badge of its flag, one bullet per reason. -/
def blockOf (entry : String × CheckResult) : CheckBlock :=
  ⟨"p-4 border rounded-lg",
    checkBlockHTML (checkTitle entry.1)
      (if entry.2.is_suspicious then "bg-red-100 text-red-800" else "bg-green-100 text-green-800")
      (if entry.2.is_suspicious then "Suspicious" else "Safe")
      (String.join (entry.2.reasons.map reasonItem))⟩

/-- The page a well-formed response is expected to produce from page `p`. -/
def renderedPage (E : Engine) (r : ScanResponse) (p : Page) : Page :=
  { applyRiskBand (.fin r.risk_score)
      { p with
        scannedUrlText := r.url
        riskScoreText := numberToString E (.fin r.risk_score) ++ "/10"
        riskBarWidth :=
          numberToString E (E.fmul (E.fdiv (.fin r.risk_score) (.fin 10)) (.fin 100)) ++ "%" } with
    checkResults := r.checks.map blockOf
    resultsHidden := false }

/-- The response of the end-to-end scenario of the specification. -/
def exampleResponse : ScanResponse where
  url := "example.com"
  risk_score := 8
  checks := [("domain_age", ⟨true, ["Registered 2 days ago"]⟩)]

/-- A response with the given score and nothing else of interest. -/
def scoreResponse (score : ℚ) : ScanResponse where
  url := "example.com"
  risk_score := score
  checks := []

/-- A controller whose URL field holds `text`, otherwise as loaded. -/
def controllerWithInput (text : String) : Controller :=
  { initialController with page := { initialPage with urlInputValue := text } }

/-! ## The title as the specification words it -/

/-- The words of a text: the maximal runs of characters between spaces. -/
def splitOnSpaces : List Char → List (List Char)
  | [] => [[]]
  | c :: cs =>
    if c = ' ' then [] :: splitOnSpaces cs
    else
      match splitOnSpaces cs with
      | [] => [[c]]
      | w :: ws => (c :: w) :: ws

/-- Words put back together, one space between neighbours. -/
def joinWithSpaces : List (List Char) → List Char
  | [] => []
  | [w] => w
  | w :: ws => w ++ ' ' :: joinWithSpaces ws

/-- A word with its first character upper-cased. -/
def capitalizeFirst : List Char → List Char
  | [] => []
  | c :: cs => c.toUpper :: cs

/-- The title as the specification describes it: underscores replaced with
spaces, then the first character of every word upper-cased and every other
character kept. -/
def specTitle (checkName : String) : String :=
  String.mk (joinWithSpaces ((splitOnSpaces (replaceUnderscores checkName.data)).map capitalizeFirst))

set_option maxRecDepth 20000

/-! ## Rendering a well-formed response -/

theorem reasonItems_strings (E : Engine) (reasons : List String) :
    reasonItems E (some (.arr (reasons.map .str))) = .ok (reasons.map reasonItem) := by
  simp only [reasonItems]
  induction reasons with
  | nil => rfl
  | cons t ts ih =>
    rw [List.map_cons, List.mapM_cons, ih]
    simp [toStringJS, bind, Except.bind, pure, Except.pure, reasonItem]

theorem renderCheck_wellFormed (E : Engine) (entry : String × CheckResult) :
    renderCheck E entry.1 entry.2.toJSON = .ok (blockOf entry) := by
  have h1 : getProp E entry.2.toJSON "is_suspicious" =
      .ok (some (.bool entry.2.is_suspicious)) := rfl
  have h2 : getProp E entry.2.toJSON "reasons" =
      .ok (some (.arr (entry.2.reasons.map .str))) := rfl
  simp only [renderCheck, h1, h2, blockOf]
  simp [bind, Except.bind, pure, Except.pure, reasonItems_strings, truthy]

theorem renderChecks_wellFormed (E : Engine) (checks : List (String × CheckResult)) (p : Page) :
    renderChecks E (checks.map fun nc => (nc.1, nc.2.toJSON)) p =
      .ok { p with checkResults := p.checkResults ++ checks.map blockOf } := by
  induction checks generalizing p with
  | nil => simp [renderChecks]
  | cons c cs ih =>
    simp only [List.map_cons, renderChecks, renderCheck_wellFormed, ih]
    simp

theorem displayResults_wellFormed (E : Engine) (r : ScanResponse) (p : Page) :
    displayResults E r.toJSON p = .ok (renderedPage E r p) := by
  have h1 : getProp E r.toJSON "url" = .ok (some (.str r.url)) := rfl
  have h2 : getProp E r.toJSON "risk_score" = .ok (some (.num (.fin r.risk_score))) := rfl
  have h3 : getProp E r.toJSON "checks" =
      .ok (some (.obj (r.checks.map fun nc => (nc.1, nc.2.toJSON)))) := rfl
  simp only [displayResults, h1, h2, h3, raiseAt, toTextContent, toStringJS, toNumberJS,
    objectEntries, renderedPage]
  simp only [bind, Except.bind, pure, Except.pure, renderChecks_wellFormed]
  unfold applyRiskBand
  split_ifs <;> simp

theorem renderedPage_band_low (E : Engine) (r : ScanResponse) (p : Page)
    (h : r.risk_score < 4) :
    (renderedPage E r p).riskBadgeText = "Low Risk" ∧
    (renderedPage E r p).riskBarClass = "h-4 rounded-full bg-green-500" ∧
    (renderedPage E r p).riskBadgeClass =
      "px-4 py-1 rounded-full text-sm font-medium bg-green-100 text-green-800" := by
  simp [renderedPage, applyRiskBand, ltConst, h]

theorem renderedPage_band_medium (E : Engine) (r : ScanResponse) (p : Page)
    (h4 : 4 ≤ r.risk_score) (h7 : r.risk_score < 7) :
    (renderedPage E r p).riskBadgeText = "Medium Risk" ∧
    (renderedPage E r p).riskBarClass = "h-4 rounded-full bg-yellow-500" ∧
    (renderedPage E r p).riskBadgeClass =
      "px-4 py-1 rounded-full text-sm font-medium bg-yellow-100 text-yellow-800" := by
  simp [renderedPage, applyRiskBand, ltConst, not_lt.mpr h4, h7]

theorem renderedPage_band_high (E : Engine) (r : ScanResponse) (p : Page)
    (h7 : 7 ≤ r.risk_score) :
    (renderedPage E r p).riskBadgeText = "High Risk" ∧
    (renderedPage E r p).riskBarClass = "h-4 rounded-full bg-red-500" ∧
    (renderedPage E r p).riskBadgeClass =
      "px-4 py-1 rounded-full text-sm font-medium bg-red-100 text-red-800" := by
  have h4 : ¬ r.risk_score < 4 := by linarith
  simp [renderedPage, applyRiskBand, ltConst, h4, not_lt.mpr h7]

/-- C1. For a response whose score `r` satisfies `0 ≤ r ≤ 10`, `displayResults`
returns normally and the page shows the Low band (label, green bar, green
badge) when `r < 4`, the Medium band (yellow) when `4 ≤ r < 7`, and the High
band (red) when `7 ≤ r`. -/
theorem displayResults_risk_band (E : Engine) (r : ScanResponse) (p : Page)
    (h0 : 0 ≤ r.risk_score) (h10 : r.risk_score ≤ 10) :
    ∃ q, displayResults E r.toJSON p = .ok q ∧
      (r.risk_score < 4 →
        q.riskBadgeText = "Low Risk" ∧
        q.riskBarClass = "h-4 rounded-full bg-green-500" ∧
        q.riskBadgeClass =
          "px-4 py-1 rounded-full text-sm font-medium bg-green-100 text-green-800") ∧
      (4 ≤ r.risk_score → r.risk_score < 7 →
        q.riskBadgeText = "Medium Risk" ∧
        q.riskBarClass = "h-4 rounded-full bg-yellow-500" ∧
        q.riskBadgeClass =
          "px-4 py-1 rounded-full text-sm font-medium bg-yellow-100 text-yellow-800") ∧
      (7 ≤ r.risk_score →
        q.riskBadgeText = "High Risk" ∧
        q.riskBarClass = "h-4 rounded-full bg-red-500" ∧
        q.riskBadgeClass =
          "px-4 py-1 rounded-full text-sm font-medium bg-red-100 text-red-800") := by
  have _ := h0
  have _ := h10
  exact ⟨renderedPage E r p, displayResults_wellFormed E r p,
    renderedPage_band_low E r p, renderedPage_band_medium E r p, renderedPage_band_high E r p⟩

/-- Witness of C1 at the boundary scores: the doubles nearest to 3.999 and
6.999, and 4, 7 and 10, give Low, Medium, Medium, High and High. -/
theorem displayResults_risk_band_witness :
    (∃ q, displayResults exactEngine
        (scoreResponse (9004947454927307 / 2251799813685248)).toJSON initialPage = .ok q ∧
      q.riskBadgeText = "Low Risk") ∧
    (∃ q, displayResults exactEngine (scoreResponse 4).toJSON initialPage = .ok q ∧
      q.riskBadgeText = "Medium Risk") ∧
    (∃ q, displayResults exactEngine
        (scoreResponse (7880173447991525 / 1125899906842624)).toJSON initialPage = .ok q ∧
      q.riskBadgeText = "Medium Risk") ∧
    (∃ q, displayResults exactEngine (scoreResponse 7).toJSON initialPage = .ok q ∧
      q.riskBadgeText = "High Risk") ∧
    (∃ q, displayResults exactEngine (scoreResponse 10).toJSON initialPage = .ok q ∧
      q.riskBadgeText = "High Risk") := by
  refine ⟨?_, ?_, ?_, ?_, ?_⟩
  · obtain ⟨q, hq, hlow, _, _⟩ := displayResults_risk_band exactEngine
      (scoreResponse (9004947454927307 / 2251799813685248)) initialPage
      (by norm_num [scoreResponse]) (by norm_num [scoreResponse])
    exact ⟨q, hq, (hlow (by norm_num [scoreResponse])).1⟩
  · obtain ⟨q, hq, _, hmed, _⟩ := displayResults_risk_band exactEngine
      (scoreResponse 4) initialPage (by norm_num [scoreResponse]) (by norm_num [scoreResponse])
    exact ⟨q, hq, (hmed (by norm_num [scoreResponse]) (by norm_num [scoreResponse])).1⟩
  · obtain ⟨q, hq, _, hmed, _⟩ := displayResults_risk_band exactEngine
      (scoreResponse (7880173447991525 / 1125899906842624)) initialPage
      (by norm_num [scoreResponse]) (by norm_num [scoreResponse])
    exact ⟨q, hq, (hmed (by norm_num [scoreResponse]) (by norm_num [scoreResponse])).1⟩
  · obtain ⟨q, hq, _, _, hhigh⟩ := displayResults_risk_band exactEngine
      (scoreResponse 7) initialPage (by norm_num [scoreResponse]) (by norm_num [scoreResponse])
    exact ⟨q, hq, (hhigh (by norm_num [scoreResponse])).1⟩
  · obtain ⟨q, hq, _, _, hhigh⟩ := displayResults_risk_band exactEngine
      (scoreResponse 10) initialPage (by norm_num [scoreResponse]) (by norm_num [scoreResponse])
    exact ⟨q, hq, (hhigh (by norm_num [scoreResponse])).1⟩

/-- C8. From any page, rendering a well-formed response `r1` and then a
well-formed response `r2` returns normally both times and leaves the very page
that rendering `r2` alone leaves; its check blocks are those of `r2` only. -/
theorem displayResults_replaces (E : Engine) (s : Page) (r1 r2 : ScanResponse) :
    ∃ p1 p12 p2,
      displayResults E r1.toJSON s = .ok p1 ∧
      displayResults E r2.toJSON p1 = .ok p12 ∧
      displayResults E r2.toJSON s = .ok p2 ∧
      p12 = p2 ∧
      p12.checkResults = r2.checks.map blockOf := by
  refine ⟨renderedPage E r1 s, renderedPage E r2 (renderedPage E r1 s), renderedPage E r2 s,
    displayResults_wellFormed E r1 s, displayResults_wellFormed E r2 _,
    displayResults_wellFormed E r2 s, ?_, rfl⟩
  unfold renderedPage applyRiskBand
  split_ifs <;> rfl

theorem append_cons_cancel (c : Char) (a b x y : List Char) (ha : c ∉ a) (hb : c ∉ b)
    (h : a ++ c :: x = b ++ c :: y) : a = b ∧ x = y := by
  induction a generalizing b with
  | nil =>
    cases b with
    | nil => simpa using h
    | cons d b =>
      simp only [List.nil_append, List.cons_append, List.cons.injEq] at h
      exact absurd (h.1 ▸ List.mem_cons_self _ _) hb
  | cons e a ih =>
    cases b with
    | nil =>
      simp only [List.nil_append, List.cons_append, List.cons.injEq] at h
      exact absurd (h.1 ▸ List.mem_cons_self _ _) ha
    | cons d b =>
      simp only [List.cons_append, List.cons.injEq] at h
      obtain ⟨h1, h2⟩ := ih b (fun hm => ha (List.mem_cons_of_mem _ hm))
        (fun hm => hb (List.mem_cons_of_mem _ hm)) h.2
      exact ⟨by rw [h.1, h1], h2⟩

theorem reasonItem_data (r : String) :
    (reasonItem r).data =
      '<' :: 'l' :: 'i' :: '>' :: '•' :: ' ' :: (r.data ++ ['<', '/', 'l', 'i', '>']) := by
  simp [reasonItem, String.data_append]

/-- Reasons free of `<` can be read back from the items markup: two lists of
such reasons with the same markup are the same list. -/
theorem reasonItems_markup_injective (rs rs2 : List String)
    (h : ∀ r ∈ rs, '<' ∉ r.data) (h2 : ∀ r ∈ rs2, '<' ∉ r.data)
    (heq : String.join (rs.map reasonItem) = String.join (rs2.map reasonItem)) : rs = rs2 := by
  have hd := congrArg String.data heq
  simp only [String.data_join, List.map_map] at hd
  clear heq
  induction rs generalizing rs2 with
  | nil =>
    cases rs2 with
    | nil => rfl
    | cons r2 t2 => simp [reasonItem_data] at hd
  | cons r t ih =>
    cases rs2 with
    | nil => simp [reasonItem_data] at hd
    | cons r2 t2 =>
      simp only [List.map_cons, List.flatten_cons, Function.comp, reasonItem_data,
        List.cons_append, List.cons.injEq, true_and, List.append_assoc] at hd
      obtain ⟨h1, h3⟩ := append_cons_cancel '<' _ _ _ _ (h r (List.mem_cons_self _ _))
        (h2 r2 (List.mem_cons_self _ _)) hd
      simp only [List.cons.injEq, true_and] at h3
      have ht := ih t2 (fun x hx => h x (List.mem_cons_of_mem _ hx))
        (fun x hx => h2 x (List.mem_cons_of_mem _ hx)) h3
      rw [ht, String.ext h1]

theorem checkBlockHTML_items_injective (title badgeClass badgeText items items2 : String)
    (h : checkBlockHTML title badgeClass badgeText items =
      checkBlockHTML title badgeClass badgeText items2) : items = items2 := by
  unfold checkBlockHTML at h
  have hd := congrArg String.data h
  simp only [String.data_append, List.append_assoc, List.append_cancel_left_eq,
    List.append_cancel_right_eq] at hd
  exact String.ext hd

/-- C9, as amended. For a well-formed response `displayResults` returns
normally and appends to `#checkResults`, in the order of the entries of
`checks`, one block per entry. The markup assigned to the block carries the
humanized title, the badge `Suspicious` on red when `is_suspicious` holds and
`Safe` on green otherwise, and one item `<li>• reason</li>` per reason in the
given order (none for an entry without reasons), title and reasons inserted
as they are. For entries of the same name and flag whose reasons hold no `<`,
equal markup means equal reasons. For the response of the end-to-end scenario
the score text is `8/10`, the band is High, and the markup of the single block
has the title `Domain Age`, the badge `Suspicious` and the one item
`• Registered 2 days ago`. -/
theorem displayResults_check_blocks (E : Engine) (p : Page) :
    (∀ r : ScanResponse, ∃ q, displayResults E r.toJSON p = .ok q ∧
      q.checkResults.length = r.checks.length ∧
      q.checkResults = r.checks.map fun entry =>
        ⟨"p-4 border rounded-lg",
          checkBlockHTML (checkTitle entry.1)
            (if entry.2.is_suspicious then "bg-red-100 text-red-800"
              else "bg-green-100 text-green-800")
            (if entry.2.is_suspicious then "Suspicious" else "Safe")
            (String.join (entry.2.reasons.map fun reason => "<li>• " ++ reason ++ "</li>"))⟩) ∧
    (∀ (url : String) (score : ℚ) (checkName : String) (flag : Bool)
        (reasons reasons2 : List String),
      (∀ reason ∈ reasons, '<' ∉ reason.data) → (∀ reason ∈ reasons2, '<' ∉ reason.data) →
      ∀ q q2,
        displayResults E
          (ScanResponse.toJSON ⟨url, score, [(checkName, ⟨flag, reasons⟩)]⟩) p = .ok q →
        displayResults E
          (ScanResponse.toJSON ⟨url, score, [(checkName, ⟨flag, reasons2⟩)]⟩) p = .ok q2 →
        q.checkResults = q2.checkResults → reasons = reasons2) ∧
    (∃ q, displayResults E exampleResponse.toJSON p = .ok q ∧
      q.riskScoreText = "8/10" ∧
      q.riskBadgeText = "High Risk" ∧
      q.riskBarClass = "h-4 rounded-full bg-red-500" ∧
      q.riskBadgeClass = "px-4 py-1 rounded-full text-sm font-medium bg-red-100 text-red-800" ∧
      q.resultsHidden = false ∧
      q.checkResults =
        [⟨"p-4 border rounded-lg",
          "\n                <div class=\"flex justify-between items-center mb-2\">" ++
          "\n                    <h4 class=\"font-medium\">Domain Age</h4>" ++
          "\n                    <span class=\"px-2 py-1 text-xs font-medium rounded-full " ++
            "bg-red-100 text-red-800\">" ++
          "\n                        Suspicious" ++
          "\n                    </span>" ++
          "\n                </div>" ++
          "\n                <ul class=\"text-sm text-gray-600 space-y-1\">" ++
          "\n                    <li>• Registered 2 days ago</li>" ++
          "\n                </ul>" ++
          "\n            "⟩]) := by
  refine ⟨?_, ?_, ?_⟩
  · intro r
    refine ⟨renderedPage E r p, displayResults_wellFormed E r p, ?_, ?_⟩
    · simp [renderedPage]
    · rfl
  · intro url score checkName flag reasons reasons2 h h2 q q2 hq hq2 heq
    rw [displayResults_wellFormed] at hq hq2
    cases hq
    cases hq2
    have hb : blockOf (checkName, ⟨flag, reasons⟩) = blockOf (checkName, ⟨flag, reasons2⟩) := by
      simpa [renderedPage] using heq
    have hh := congrArg CheckBlock.innerHTML hb
    exact reasonItems_markup_injective reasons reasons2 h h2
      (checkBlockHTML_items_injective _ _ _ _ _ hh)
  · refine ⟨renderedPage E exampleResponse p, displayResults_wellFormed E exampleResponse p,
      ?_, ?_, ?_, ?_, ?_, ?_⟩
    · have h : numberToString E (.fin exampleResponse.risk_score) = "8" := by
        simp [numberToString, exampleResponse]
        decide
      show numberToString E (.fin exampleResponse.risk_score) ++ "/10" = "8/10"
      rw [h]; decide
    · exact (renderedPage_band_high E exampleResponse p (by norm_num [exampleResponse])).1
    · exact (renderedPage_band_high E exampleResponse p (by norm_num [exampleResponse])).2.1
    · exact (renderedPage_band_high E exampleResponse p (by norm_num [exampleResponse])).2.2
    · rfl
    · show exampleResponse.checks.map blockOf = _
      decide

/-- Witness of C9 as amended: on the loaded page the entries
`x: ["a", "b"]` and `x: ["a", "c"]`, free of `<`, get different blocks. -/
theorem displayResults_check_blocks_witness :
    (∀ reason ∈ ["a", "b"], '<' ∉ reason.data) ∧
    (∀ reason ∈ ["a", "c"], '<' ∉ reason.data) ∧
    (∀ q q2,
      displayResults exactEngine
        (ScanResponse.toJSON ⟨"", 0, [("x", ⟨false, ["a", "b"]⟩)]⟩) initialPage = .ok q →
      displayResults exactEngine
        (ScanResponse.toJSON ⟨"", 0, [("x", ⟨false, ["a", "c"]⟩)]⟩) initialPage = .ok q2 →
      q.checkResults ≠ q2.checkResults) :=
  ⟨by decide, by decide, fun q q2 hq hq2 heq =>
    absurd ((displayResults_check_blocks exactEngine initialPage).2.1 "" 0 "x" false
      ["a", "b"] ["a", "c"] (by decide) (by decide) q q2 hq hq2 heq) (by decide)⟩

/-- C9 as stated fails where a reason holds markup: the entry with the single
reason `a</li><li>• b` and the entry with the two reasons `a` and `b` are
rendered to the same page, block for block, so the list of the first does not
hold exactly its one reason. -/
theorem displayResults_markup_counterexample :
    displayResults exactEngine
      (ScanResponse.toJSON ⟨"example.com", 8, [("x", ⟨false, ["a</li><li>• b"]⟩)]⟩) initialPage =
    displayResults exactEngine
      (ScanResponse.toJSON ⟨"example.com", 8, [("x", ⟨false, ["a", "b"]⟩)]⟩) initialPage ∧
    (["a</li><li>• b"] : List String) ≠ ["a", "b"] := by
  constructor
  · have hb : blockOf ("x", ⟨false, ["a</li><li>• b"]⟩) = blockOf ("x", ⟨false, ["a", "b"]⟩) := by
      decide
    rw [displayResults_wellFormed, displayResults_wellFormed]
    simp only [renderedPage, List.map_cons, List.map_nil, hb]
  · decide

theorem joinWithSpaces_cons_cons (c : Char) (w : List Char) (ws : List (List Char)) :
    joinWithSpaces ((c :: w) :: ws) = c :: joinWithSpaces (w :: ws) := by
  cases ws <;> simp [joinWithSpaces]

theorem splitOnSpaces_ne_nil (cs : List Char) : splitOnSpaces cs ≠ [] := by
  cases cs with
  | nil => simp [splitOnSpaces]
  | cons c cs =>
    simp only [splitOnSpaces]
    split_ifs
    · simp
    · split <;> simp

/-- On a text of ASCII letters, digits and spaces the regex replacement is the
word-wise capitalisation: with no word character before the text, every word is
capitalised; with one, the first word is continued and left alone. -/
theorem upcaseWordStarts_eq_words (cs : List Char)
    (h : ∀ c ∈ cs, c.isAlphanum = true ∨ c = ' ') :
    upcaseWordStarts false cs = joinWithSpaces ((splitOnSpaces cs).map capitalizeFirst) ∧
    upcaseWordStarts true cs =
      joinWithSpaces ((splitOnSpaces cs).head! :: (splitOnSpaces cs).tail.map capitalizeFirst) := by
  induction cs with
  | nil => simp [upcaseWordStarts, splitOnSpaces, joinWithSpaces, capitalizeFirst]
  | cons c cs ih =>
    have ih := ih (fun x hx => h x (List.mem_cons_of_mem _ hx))
    obtain ⟨w, ws, hsplit⟩ : ∃ w ws, splitOnSpaces cs = w :: ws := by
      cases hs : splitOnSpaces cs with
      | nil => exact absurd hs (splitOnSpaces_ne_nil cs)
      | cons w ws => exact ⟨w, ws, rfl⟩
    rw [hsplit] at ih
    rcases h c (List.mem_cons_self _ _) with hc | hc
    · have hsp : c ≠ ' ' := by
        rintro rfl
        exact absurd hc (by decide)
      have hw : isWordChar c = true := by simp [isWordChar, hc]
      simp only [upcaseWordStarts, splitOnSpaces, hsp, hsplit, hw, if_false]
      simp only [List.map_cons, capitalizeFirst, joinWithSpaces_cons_cons, List.head!_cons,
        List.tail_cons] at ih ⊢
      simp [ih.2]
    · subst hc
      have hw : isWordChar ' ' = false := by decide
      simp only [upcaseWordStarts, splitOnSpaces, hsplit, hw, if_true]
      simp only [List.map_cons, capitalizeFirst, List.head!_cons, List.tail_cons] at ih ⊢
      simp [joinWithSpaces, ih.1]

/-- C10, as amended. For a check name made of ASCII letters, digits,
underscores and spaces only, the title `displayResults` derives is the name
with every underscore replaced by one space and the first character of every
word (maximal run between spaces) upper-cased, every other character kept. -/
theorem checkTitle_eq_specTitle (checkName : String)
    (h : ∀ c ∈ checkName.data, c.isAlphanum = true ∨ c = '_' ∨ c = ' ') :
    checkTitle checkName = specTitle checkName := by
  have h2 : ∀ c ∈ replaceUnderscores checkName.data, c.isAlphanum = true ∨ c = ' ' := by
    intro c hc
    simp only [replaceUnderscores, List.mem_map] at hc
    obtain ⟨d, hd, rfl⟩ := hc
    rcases h d hd with h1 | h1 | h1
    · have : d ≠ '_' := by
        rintro rfl
        exact absurd h1 (by decide)
      simp [this, h1]
    · simp [h1]
    · subst h1
      simp
  simp only [checkTitle, specTitle, (upcaseWordStarts_eq_words _ h2).1]

/-- Witness of C10 at `domain_age`, whose title is `Domain Age`. -/
theorem checkTitle_eq_specTitle_witness :
    (∀ c ∈ "domain_age".data, c.isAlphanum = true ∨ c = '_' ∨ c = ' ') ∧
    checkTitle "domain_age" = specTitle "domain_age" ∧
    checkTitle "domain_age" = "Domain Age" :=
  ⟨by decide, checkTitle_eq_specTitle "domain_age" (by decide), by decide⟩

/-- C10 as stated fails at `ssl-cert`: it is one word between spaces, so only
its first letter should change, but the letter after the hyphen is upper-cased
as well. -/
theorem checkTitle_title_counterexample :
    checkTitle "ssl-cert" = "Ssl-Cert" ∧ specTitle "ssl-cert" = "Ssl-cert" ∧
    checkTitle "ssl-cert" ≠ specTitle "ssl-cert" := by
  decide

/-! ## The scan workflow -/

theorem trimChars_eq_nil_iff (cs : List Char) :
    trimChars cs = [] ↔ ∀ c ∈ cs, isJSWhitespace c = true := by
  unfold trimChars
  rw [List.reverse_eq_nil_iff]
  constructor
  · intro h
    rw [List.dropWhile_eq_nil_iff] at h
    have h2 : cs.dropWhile isJSWhitespace = [] := by
      cases hd : cs.dropWhile isJSWhitespace with
      | nil => rfl
      | cons a l =>
        have ha : isJSWhitespace a = true := h a (by simp [hd])
        have hn := List.head_dropWhile_not isJSWhitespace cs (by simp [hd])
        simp [hd] at hn
        simp [hn] at ha
    exact List.dropWhile_eq_nil_iff.mp h2
  · intro h
    rw [List.dropWhile_eq_nil_iff.mpr h]
    rfl

/-- The trimmed value is empty exactly for the empty string and the strings
made of white space only. -/
theorem jsTrim_eq_empty_iff (s : String) :
    jsTrim s = "" ↔ ∀ c ∈ s.data, isJSWhitespace c = true := by
  rw [← trimChars_eq_nil_iff]
  unfold jsTrim
  constructor
  · intro h
    have := congrArg String.data h
    simpa using this
  · intro h
    rw [h]

/-- C2. When the trimmed value of the URL field is empty, `startScan` shows
exactly `Please enter a URL to scan` in the error panel, sends no request, and
leaves the scan button and the loading indicator as they were: the button is
not disabled and the indicator is not shown by the call. -/
theorem startScan_empty_input (c : Controller) (h : jsTrim c.page.urlInputValue = "") :
    (startScan c).page.errorMessageText = "Please enter a URL to scan" ∧
    (startScan c).page.errorHidden = false ∧
    (startScan c).requestsSent = c.requestsSent ∧
    (startScan c).inFlight = c.inFlight ∧
    (startScan c).page.scanButtonDisabled = c.page.scanButtonDisabled ∧
    (startScan c).page.scanButtonOpacity75 = c.page.scanButtonOpacity75 ∧
    (startScan c).page.scanButtonCursorNotAllowed = c.page.scanButtonCursorNotAllowed ∧
    (startScan c).page.loadingHidden = c.page.loadingHidden := by
  simp [startScan, h, showError]

/-- Witness of C2: a URL field holding a blank, a tab and a blank, on the
page as loaded: the message is shown, nothing is sent, the button stays enabled
and the indicator hidden. -/
theorem startScan_empty_input_witness :
    jsTrim (controllerWithInput " \t ").page.urlInputValue = "" ∧
    (startScan (controllerWithInput " \t ")).page.errorMessageText =
      "Please enter a URL to scan" ∧
    (startScan (controllerWithInput " \t ")).requestsSent = 0 ∧
    (startScan (controllerWithInput " \t ")).page.scanButtonDisabled = false ∧
    (startScan (controllerWithInput " \t ")).page.loadingHidden = true :=
  have h := startScan_empty_input (controllerWithInput " \t ") (by decide)
  ⟨by decide, h.1, h.2.2.1, h.2.2.2.2.1, h.2.2.2.2.2.2.2⟩

theorem settle_eq_onFinally (E : Engine) (outcome : FetchOutcome) (c : Controller) :
    ∃ d, settle E outcome c = onFinally d ∧ d.cleanupRuns = c.cleanupRuns := by
  have hdata : ∀ data, (onData E data c).1.cleanupRuns = c.cleanupRuns := by
    intro data
    unfold onData
    split
    · rfl
    · split_ifs
      · split <;> rfl
      · simp only
        split <;> rfl
  unfold settle
  rcases outcome with message | ⟨status, message | data⟩
  · exact ⟨_, rfl, rfl⟩
  · exact ⟨_, rfl, rfl⟩
  · simp only
    cases h2 : (onData E data c).2 with
    | none => exact ⟨_, rfl, hdata data⟩
    | some e => exact ⟨_, rfl, hdata data⟩

/-- C3. A scan started with a non-empty trimmed input sends its request
without running the cleanup, and however the request settles afterwards
(rendered payload, payload with an error field, network failure, unparsable
body, payload on which the renderer throws), from whatever state the
controller is in by then, the promise chain ends with the loading indicator
hidden and the scan button enabled, its busy styling removed, and the cleanup
has run exactly once more. -/
theorem settle_cleanup (E : Engine) (c : Controller) (h : jsTrim c.page.urlInputValue ≠ "") :
    (startScan c).inFlight = c.inFlight ++ [jsTrim c.page.urlInputValue] ∧
    (startScan c).cleanupRuns = c.cleanupRuns ∧
    (∀ outcome : FetchOutcome,
      (settle E outcome (startScan c)).page.loadingHidden = true ∧
      (settle E outcome (startScan c)).page.scanButtonDisabled = false ∧
      (settle E outcome (startScan c)).cleanupRuns = c.cleanupRuns + 1) ∧
    (∀ (outcome : FetchOutcome) (d : Controller),
      (settle E outcome d).page.loadingHidden = true ∧
      (settle E outcome d).page.scanButtonDisabled = false ∧
      (settle E outcome d).page.scanButtonOpacity75 = false ∧
      (settle E outcome d).page.scanButtonCursorNotAllowed = false ∧
      (settle E outcome d).cleanupRuns = d.cleanupRuns + 1) := by
  have hgen : ∀ (outcome : FetchOutcome) (d : Controller),
      (settle E outcome d).page.loadingHidden = true ∧
      (settle E outcome d).page.scanButtonDisabled = false ∧
      (settle E outcome d).page.scanButtonOpacity75 = false ∧
      (settle E outcome d).page.scanButtonCursorNotAllowed = false ∧
      (settle E outcome d).cleanupRuns = d.cleanupRuns + 1 := by
    intro outcome d
    obtain ⟨d2, h1, h2⟩ := settle_eq_onFinally E outcome d
    rw [h1]
    simp [onFinally, h2]
  have hs : (startScan c).cleanupRuns = c.cleanupRuns := by simp [startScan, h]
  refine ⟨by simp [startScan, h], hs, ?_, hgen⟩
  intro outcome
  have := hgen outcome (startScan c)
  exact ⟨this.1, this.2.1, by rw [this.2.2.2.2, hs]⟩

/-- Witness of C3: the scan of `example.com` from the loaded page, settled by a
network failure. -/
theorem settle_cleanup_witness :
    jsTrim (controllerWithInput "example.com").page.urlInputValue ≠ "" ∧
    (settle exactEngine (.networkFailure "Failed to fetch")
      (startScan (controllerWithInput "example.com"))).page.loadingHidden = true ∧
    (settle exactEngine (.networkFailure "Failed to fetch")
      (startScan (controllerWithInput "example.com"))).page.scanButtonDisabled = false ∧
    (settle exactEngine (.networkFailure "Failed to fetch")
      (startScan (controllerWithInput "example.com"))).cleanupRuns = 1 :=
  have h := (settle_cleanup exactEngine (controllerWithInput "example.com") (by decide)).2.2.1
    (.networkFailure "Failed to fetch")
  ⟨by decide, h.1, h.2.1, h.2.2⟩

theorem settle_rejected (E : Engine) (c : Controller) (outcome : FetchOutcome) (e : JSError)
    (h : (match outcome with
      | .networkFailure message => ((c, some ⟨message⟩) : Controller × Option JSError)
      | .response _ (.unparsable message) => (c, some ⟨message⟩)
      | .response _ (.json data) => onData E data c) = (c, some e)) :
    settle E outcome c = onFinally (onRejected e c) := by
  unfold settle
  simp only [h]

theorem onFinally_onRejected_page (e : JSError) (d : Controller) :
    (onFinally (onRejected e d)).page.errorMessageText =
      (if e.message ≠ "" then e.message else "An error occurred while scanning the URL") ∧
    (onFinally (onRejected e d)).page.errorHidden = false ∧
    (onFinally (onRejected e d)).page.resultsHidden = d.page.resultsHidden ∧
    (onFinally (onRejected e d)).renderCalls = d.renderCalls := by
  simp [onFinally, onRejected, showError]

/-- A body that cannot be parsed, or is `null`, or has a truthy `error` field
makes the chain reject before line 55 is reached. -/
theorem settle_failing_body (E : Engine) (status : Nat) (body : Body) (d : Controller)
    (hbody : (∃ message, body = .unparsable message) ∨ body = .json .null ∨
      ∃ data err, body = .json data ∧ getProp E data "error" = .ok err ∧ truthy err = true) :
    ∃ e, settle E (.response status body) d = onFinally (onRejected e d) := by
  rcases hbody with ⟨message, rfl⟩ | rfl | ⟨data, err, rfl, hget, htruthy⟩
  · exact ⟨⟨message⟩, settle_rejected E _ _ _ rfl⟩
  · exact ⟨typeError E ("read " ++ "error" ++ " of null"), settle_rejected E _ _ _ rfl⟩
  · cases hs : toStringJS E err with
    | ok text => exact ⟨⟨text⟩, settle_rejected E _ _ _ (by simp [onData, hget, htruthy, hs])⟩
    | error e => exact ⟨e, settle_rejected E _ _ _ (by simp [onData, hget, htruthy, hs])⟩

/-- A payload whose `error` field is missing or falsy reaches line 55. -/
theorem settle_falsy_error_renders (E : Engine) (status : Nat) (data : JSON) (err : Option JSON)
    (d : Controller) (hget : getProp E data "error" = .ok err) (hfalsy : truthy err = false) :
    (settle E (.response status (.json data)) d).renderCalls = d.renderCalls + 1 := by
  have h1 : (onData E data d).1.renderCalls = d.renderCalls + 1 := by
    simp only [onData, hget, hfalsy]
    simp only [Bool.false_eq_true, if_false]
    split <;> rfl
  unfold settle
  simp only
  cases h2 : (onData E data d).2 with
  | none => simpa [onFinally] using h1
  | some e => simpa [onFinally, onRejected] using h1

theorem startScan_keeps_resultsHidden (d : Controller) (h : d.page.resultsHidden = true) :
    (startScan d).page.resultsHidden = true ∧ (startScan d).renderCalls = d.renderCalls := by
  unfold startScan
  simp only
  split_ifs
  · simpa [showError] using h
  · simp

theorem step_user_keeps_resultsHidden (E : Engine) (d : Controller) (e : Event)
    (he : e.isSettled = false) (h : d.page.resultsHidden = true) :
    (step E d e).page.resultsHidden = true ∧ (step E d e).renderCalls = d.renderCalls := by
  cases e with
  | edit text => exact ⟨h, rfl⟩
  | click =>
    simp only [step]
    split_ifs
    · exact ⟨h, rfl⟩
    · exact startScan_keeps_resultsHidden d h
  | keypress key =>
    simp only [step]
    split_ifs
    · exact startScan_keeps_resultsHidden d h
    · exact ⟨h, rfl⟩
  | settled i outcome => simp [Event.isSettled] at he

/-- What the user does (editing, clicking, pressing keys) never shows the
results panel and never calls `displayResults`. -/
theorem run_user_keeps_resultsHidden (E : Engine) (events : List Event) (d : Controller)
    (hev : ∀ e ∈ events, e.isSettled = false) (h : d.page.resultsHidden = true) :
    (run E d events).page.resultsHidden = true ∧ (run E d events).renderCalls = d.renderCalls := by
  induction events generalizing d with
  | nil => exact ⟨h, rfl⟩
  | cons e es ih =>
    have h1 := step_user_keeps_resultsHidden E d e (hev e (List.mem_cons_self _ _)) h
    have h2 := ih (step E d e) (fun x hx => hev x (List.mem_cons_of_mem _ hx)) h1.1
    exact ⟨h2.1, h2.2.trans h1.2⟩

theorem startScan_hides_results (c : Controller) (hin : jsTrim c.page.urlInputValue ≠ "") :
    (startScan c).page.resultsHidden = true ∧ (startScan c).renderCalls = c.renderCalls := by
  simp [startScan, hin]

/-- C4, as amended. Let the payload carry an `error` field with text `m`,
whatever else it carries and whatever the HTTP status. If `m` is not empty,
then from whatever state the controller is in when the response settles, the
error message shown is exactly `m`, the error panel is shown, `displayResults`
is not called and the results panel is left as it was; in particular the
results panel is hidden when, since the scan was started from a non-empty
input, only user events (no other settlement) have taken place. If `m` is
empty, the payload is handed to `displayResults`. -/
theorem settle_service_error (E : Engine) (status : Nat)
    (props : List (String × JSON)) (m : String)
    (herr : props.lookup "error" = some (.str m)) :
    (m ≠ "" →
      (∀ d : Controller,
        (settle E (.response status (.json (.obj props))) d).page.errorMessageText = m ∧
        (settle E (.response status (.json (.obj props))) d).page.errorHidden = false ∧
        (settle E (.response status (.json (.obj props))) d).page.resultsHidden =
          d.page.resultsHidden ∧
        (settle E (.response status (.json (.obj props))) d).renderCalls = d.renderCalls) ∧
      (∀ (c : Controller) (events : List Event),
        jsTrim c.page.urlInputValue ≠ "" → (∀ e ∈ events, e.isSettled = false) →
        (settle E (.response status (.json (.obj props)))
          (run E (startScan c) events)).page.errorMessageText = m ∧
        (settle E (.response status (.json (.obj props)))
          (run E (startScan c) events)).page.errorHidden = false ∧
        (settle E (.response status (.json (.obj props)))
          (run E (startScan c) events)).page.resultsHidden = true ∧
        (settle E (.response status (.json (.obj props)))
          (run E (startScan c) events)).renderCalls = c.renderCalls)) ∧
    (m = "" → ∀ d : Controller,
      (settle E (.response status (.json (.obj props))) d).renderCalls = d.renderCalls + 1) := by
  constructor
  · intro hm
    have hgen : ∀ d : Controller,
        (settle E (.response status (.json (.obj props))) d).page.errorMessageText = m ∧
        (settle E (.response status (.json (.obj props))) d).page.errorHidden = false ∧
        (settle E (.response status (.json (.obj props))) d).page.resultsHidden =
          d.page.resultsHidden ∧
        (settle E (.response status (.json (.obj props))) d).renderCalls = d.renderCalls := by
      intro d
      have h : settle E (.response status (.json (.obj props))) d =
          onFinally (onRejected ⟨m⟩ d) := by
        apply settle_rejected
        simp [onData, getProp, herr, truthy, hm, toStringJS]
      rw [h]
      have hp := onFinally_onRejected_page ⟨m⟩ d
      simp only [ne_eq, hm, not_false_eq_true, if_true] at hp
      exact hp
    refine ⟨hgen, ?_⟩
    intro c events hin hev
    have hs := startScan_hides_results c hin
    have hr := run_user_keeps_resultsHidden E events (startScan c) hev hs.1
    have hg := hgen (run E (startScan c) events)
    exact ⟨hg.1, hg.2.1, hg.2.2.1.trans hr.1, hg.2.2.2.trans (hr.2.trans hs.2)⟩
  · intro hm d
    subst hm
    exact settle_falsy_error_renders E status (.obj props) (some (.str "")) d
      (by simp [getProp, herr]) (by simp [truthy])

/-- Witness of C4 as amended: the payload `{ error: "invalid url" }`, settling
right after the scan of `example.com` was started from the loaded page, shows
exactly `invalid url`, with the results panel hidden and nothing rendered. -/
theorem settle_service_error_witness :
    (settle exactEngine (.response 200 (.json (.obj [("error", .str "invalid url")])))
      (run exactEngine (startScan (controllerWithInput "example.com")) [])).page.errorMessageText
        = "invalid url" ∧
    (settle exactEngine (.response 200 (.json (.obj [("error", .str "invalid url")])))
      (run exactEngine (startScan (controllerWithInput "example.com")) [])).page.errorHidden
        = false ∧
    (settle exactEngine (.response 200 (.json (.obj [("error", .str "invalid url")])))
      (run exactEngine (startScan (controllerWithInput "example.com")) [])).page.resultsHidden
        = true ∧
    (settle exactEngine (.response 200 (.json (.obj [("error", .str "invalid url")])))
      (run exactEngine (startScan (controllerWithInput "example.com")) [])).renderCalls = 0 :=
  ((settle_service_error exactEngine 200 [("error", .str "invalid url")] "invalid url" rfl).1
    (by decide)).2 (controllerWithInput "example.com") [] (by decide) (by simp)

/-- C4 as stated fails in two ways. A payload whose `error` field is the empty
text passes the test of line 52, so `displayResults` is called; with the other
fields present the results panel is shown and the error panel is not. And
with two scans in flight (the second started with Enter), once the second is
rendered the payload `{ error: "invalid url" }` of the first leaves the results
panel shown next to the error. -/
theorem settle_service_error_counterexample :
    ((settle exactEngine
      (.response 200 (.json (.obj [("error", .str ""), ("url", .str "example.com"),
        ("risk_score", .num (.fin 8)), ("checks", .obj [])])))
      (startScan (controllerWithInput "example.com"))).renderCalls = 1 ∧
    (settle exactEngine
      (.response 200 (.json (.obj [("error", .str ""), ("url", .str "example.com"),
        ("risk_score", .num (.fin 8)), ("checks", .obj [])])))
      (startScan (controllerWithInput "example.com"))).page.resultsHidden = false ∧
    (settle exactEngine
      (.response 200 (.json (.obj [("error", .str ""), ("url", .str "example.com"),
        ("risk_score", .num (.fin 8)), ("checks", .obj [])])))
      (startScan (controllerWithInput "example.com"))).page.errorHidden = true) ∧
    ((run exactEngine initialController
      [.edit "example.com", .click, .keypress "Enter",
        .settled 1 (.response 200 (.json exampleResponse.toJSON)),
        .settled 0 (.response 200 (.json (.obj [("error", .str "invalid url")])))]
      ).page.errorMessageText = "invalid url" ∧
    (run exactEngine initialController
      [.edit "example.com", .click, .keypress "Enter",
        .settled 1 (.response 200 (.json exampleResponse.toJSON)),
        .settled 0 (.response 200 (.json (.obj [("error", .str "invalid url")])))]
      ).page.resultsHidden = false) := by
  decide

/-- C7, as amended. The status of a response is never read: responses that
differ in status only settle alike. A response of any status, a non-success
one included, whose body cannot be parsed, or parses to `null`, or parses to a
value with a truthy `error` field, settles, from whatever state the controller
is in, with the error panel shown, `displayResults` not called and the results
panel left as it was; in particular the results panel is hidden when, since
the scan was started from a non-empty input, only user events (no other
settlement) have taken place. A response of any status whose body parses to a
value with a missing or falsy `error` field is handed to `displayResults`. -/
theorem settle_failed_body (E : Engine) :
    (∀ (status status2 : Nat) (body : Body) (d : Controller),
      settle E (.response status body) d = settle E (.response status2 body) d) ∧
    (∀ (status : Nat) (body : Body) (d : Controller),
      ((∃ message, body = .unparsable message) ∨ body = .json .null ∨
        ∃ data err, body = .json data ∧ getProp E data "error" = .ok err ∧ truthy err = true) →
      (settle E (.response status body) d).page.errorHidden = false ∧
      (settle E (.response status body) d).page.resultsHidden = d.page.resultsHidden ∧
      (settle E (.response status body) d).renderCalls = d.renderCalls) ∧
    (∀ (status : Nat) (body : Body) (c : Controller) (events : List Event),
      ((∃ message, body = .unparsable message) ∨ body = .json .null ∨
        ∃ data err, body = .json data ∧ getProp E data "error" = .ok err ∧ truthy err = true) →
      jsTrim c.page.urlInputValue ≠ "" → (∀ e ∈ events, e.isSettled = false) →
      (settle E (.response status body) (run E (startScan c) events)).page.errorHidden = false ∧
      (settle E (.response status body) (run E (startScan c) events)).page.resultsHidden = true ∧
      (settle E (.response status body) (run E (startScan c) events)).renderCalls =
        c.renderCalls) ∧
    (∀ (status : Nat) (data : JSON) (err : Option JSON) (d : Controller),
      getProp E data "error" = .ok err → truthy err = false →
      (settle E (.response status (.json data)) d).renderCalls = d.renderCalls + 1) := by
  have hgen : ∀ (status : Nat) (body : Body) (d : Controller),
      ((∃ message, body = .unparsable message) ∨ body = .json .null ∨
        ∃ data err, body = .json data ∧ getProp E data "error" = .ok err ∧ truthy err = true) →
      (settle E (.response status body) d).page.errorHidden = false ∧
      (settle E (.response status body) d).page.resultsHidden = d.page.resultsHidden ∧
      (settle E (.response status body) d).renderCalls = d.renderCalls := by
    intro status body d hbody
    obtain ⟨e, he⟩ := settle_failing_body E status body d hbody
    rw [he]
    exact (onFinally_onRejected_page e d).2
  refine ⟨?_, hgen, ?_, ?_⟩
  · intro status status2 body d
    cases body <;> rfl
  · intro status body c events hbody hin hev
    have hs := startScan_hides_results c hin
    have hr := run_user_keeps_resultsHidden E events (startScan c) hev hs.1
    have hg := hgen status body (run E (startScan c) events) hbody
    exact ⟨hg.1, hg.2.1.trans hr.1, hg.2.2.trans (hr.2.trans hs.2)⟩
  · intro status data err d hget hfalsy
    exact settle_falsy_error_renders E status data err d hget hfalsy

/-- Witness of C7 as amended: a response of status 500 whose body is not JSON,
settling after the scan of `example.com` was started from the loaded page and
the user edited the field and clicked the disabled button. -/
theorem settle_failed_body_witness :
    (settle exactEngine (.response 500 (.unparsable "Unexpected token <"))
      (run exactEngine (startScan (controllerWithInput "example.com"))
        [.edit "other.org", .click])).page.errorHidden = false ∧
    (settle exactEngine (.response 500 (.unparsable "Unexpected token <"))
      (run exactEngine (startScan (controllerWithInput "example.com"))
        [.edit "other.org", .click])).page.resultsHidden = true ∧
    (settle exactEngine (.response 500 (.unparsable "Unexpected token <"))
      (run exactEngine (startScan (controllerWithInput "example.com"))
        [.edit "other.org", .click])).renderCalls = 0 :=
  (settle_failed_body exactEngine).2.2.1 500 (.unparsable "Unexpected token <")
    (controllerWithInput "example.com") [.edit "other.org", .click]
    (Or.inl ⟨_, rfl⟩) (by decide) (by decide)

/-- C7 as stated fails in two ways. A response of status 500 whose body is a
well-formed payload is rendered: `displayResults` is called, the results panel
is shown and the error panel is not. And with two scans in flight (the second
started with Enter), once the second is rendered an unparsable response of
status 500 to the first leaves the results panel shown next to the error. -/
theorem settle_status_counterexample :
    ((settle exactEngine (.response 500 (.json exampleResponse.toJSON))
      (startScan (controllerWithInput "example.com"))).renderCalls = 1 ∧
    (settle exactEngine (.response 500 (.json exampleResponse.toJSON))
      (startScan (controllerWithInput "example.com"))).page.resultsHidden = false ∧
    (settle exactEngine (.response 500 (.json exampleResponse.toJSON))
      (startScan (controllerWithInput "example.com"))).page.errorHidden = true) ∧
    ((run exactEngine initialController
      [.edit "example.com", .click, .keypress "Enter",
        .settled 1 (.response 200 (.json exampleResponse.toJSON)),
        .settled 0 (.response 500 (.unparsable "Unexpected token <"))]
      ).page.errorHidden = false ∧
    (run exactEngine initialController
      [.edit "example.com", .click, .keypress "Enter",
        .settled 1 (.response 200 (.json exampleResponse.toJSON)),
        .settled 0 (.response 500 (.unparsable "Unexpected token <"))]
      ).page.resultsHidden = false) := by
  decide

/-- C5, evaluated where it fails. From the loaded page: a scan of
`example.com` is rendered, then the field is cleared and the button clicked.
The guard of lines 28-31 shows the error without hiding the results, so both
panels are visible. -/
theorem run_results_and_error_visible :
    (run exactEngine initialController
      [.edit "example.com", .click,
        .settled 0 (.response 200 (.json exampleResponse.toJSON)),
        .edit "", .click]).page.resultsHidden = false ∧
    (run exactEngine initialController
      [.edit "example.com", .click,
        .settled 0 (.response 200 (.json exampleResponse.toJSON)),
        .edit "", .click]).page.errorHidden = false := by
  decide

/-- C6, evaluated where it fails. From the loaded page, with a scan in flight:
a second click sends nothing (the button is disabled), but Enter in the URL
field calls `startScan` again and a second request is in flight. -/
theorem run_enter_during_flight :
    (run exactEngine initialController
      [.edit "example.com", .click]).page.scanButtonDisabled = true ∧
    (run exactEngine initialController
      [.edit "example.com", .click, .click]).inFlight = ["example.com"] ∧
    (run exactEngine initialController
      [.edit "example.com", .click, .keypress "Enter"]).inFlight =
        ["example.com", "example.com"] ∧
    (run exactEngine initialController
      [.edit "example.com", .click, .keypress "Enter"]).requestsSent = 2 := by
  decide

end ScanPage
